import Mathlib

/-!
# Verification of the `lupi` state-management library

This file shallowly embeds the core of the repository: the persistence
adapter `LupiStorage` (`src/storage.ts`) and the reactive `Store` class
(`src/store.ts`, the class taking a `LupiStorage` with optional `actions`).

Host-platform primitives (WebCrypto's PBKDF2/AES-GCM, `TextEncoder` /
`TextDecoder`, `btoa`/`atob`, `JSON.stringify`/`JSON.parse`, `String()` /
`Number()` coercion, `localStorage`) are not repository code; they are
parameters of the model, and theorems assume only the inverse laws of the
primitives at their points of use.
-/

namespace Lupi

/-- Runtime JavaScript values, as far as the library manipulates them.
Numbers are modelled as integers (the library never computes with them,
it only serializes and re-parses them). -/
inductive JSValue where
  | num (n : Int)
  | bool (b : Bool)
  | str (s : String)
  | arr (elems : List JSValue)
  | obj (fields : List (String × JSValue))
  | null
  | undefined

/-- `typeof v` for the modelled values (`typeof null` is `"object"` in JS). -/
def jsTypeof : JSValue → String
  | .num _ => "number"
  | .bool _ => "boolean"
  | .str _ => "string"
  | .arr _ => "object"
  | .obj _ => "object"
  | .null => "object"
  | .undefined => "undefined"

/-- `Array.isArray v`. -/
def isArray : JSValue → Bool
  | .arr _ => true
  | _ => false

/-- Truthiness of an optional string (`undefined` and `""` are falsy). -/
def truthy : Option String → Bool
  | none => false
  | some s => s ≠ ""

/-- `v == null` in the nullish-coalescing sense: `null` and `undefined`. -/
def isNullish : JSValue → Bool
  | .null => true
  | .undefined => true
  | _ => false

/-- First-match association lookup on an object's field list. -/
def lookupEntry : List (String × JSValue) → String → Option JSValue
  | [], _ => none
  | (k, v) :: rest, key => if k = key then some v else lookupEntry rest key

/-- Property access `v[key]`, yielding `undefined` when absent or when the
value is not an object. -/
def getField (v : JSValue) (key : String) : JSValue :=
  match v with
  | .obj fs =>
    match lookupEntry fs key with
    | some w => w
    | none => .undefined
  | _ => .undefined

/-- The parameters the adapter passes to the host's PBKDF2 key derivation
(`crypto.subtle.deriveKey` in `LupiStorage.getKey`). -/
structure DeriveParams where
  passphrase : Option String
  salt : String
  iterations : Nat
  hash : String
  algo : String
  length : Nat
  deriving DecidableEq

/-- Host-platform primitives used by the storage layer. `K` is the type of
derived key handles (`CryptoKey`). `aesGcmDecrypt` and `fromBase64` return
`none` where the host throws (`OperationError` / `InvalidCharacterError`);
`jsonParse` returns `none` where the host throws `SyntaxError`. -/
structure HostPrims (K : Type) where
  deriveKey : DeriveParams → K
  utf8Encode : String → List Nat
  utf8Decode : List Nat → String
  aesGcmEncrypt : K → List Nat → List Nat → List Nat
  aesGcmDecrypt : K → List Nat → List Nat → Option (List Nat)
  toBase64 : List Nat → String
  fromBase64 : String → Option (List Nat)
  jsonStringify : JSValue → String
  jsonParse : String → Option JSValue
  jsToString : JSValue → String
  jsToNumber : JSValue → JSValue

/-- The mutable fields of a `LupiStorage` instance: the constructor-supplied
passphrase and the lazily derived, cached `CryptoKey`. -/
structure LupiStorage (K : Type) where
  encryptKey : Option String
  cachedKey : Option K

namespace LupiStorage

variable {K : Type}

/-- `new LupiStorage(encryptKey)`. -/
def mkStorage (encryptKey : Option String) : LupiStorage K :=
  { encryptKey := encryptKey, cachedKey := none }

/-- `LupiStorage.getKey`: return the cached key, or derive it with PBKDF2
(salt `'salt'`, 100000 iterations, SHA-256) into a 256-bit AES-GCM key and
cache it.  The third component records the derivation calls performed. -/
def getKey (P : HostPrims K) (s : LupiStorage K) :
    K × LupiStorage K × List DeriveParams :=
  match s.cachedKey with
  | some k => (k, s, [])
  | none =>
    let params : DeriveParams :=
      { passphrase := s.encryptKey, salt := "salt", iterations := 100000,
        hash := "SHA-256", algo := "AES-GCM", length := 256 }
    let k := P.deriveKey params
    (k, { s with cachedKey := some k }, [params])

/-- `LupiStorage.encrypt`: UTF-8-encode the plaintext, AES-GCM-encrypt it
under the derived key and the supplied 12-byte `iv` (the host's random
nonce, a parameter of the model), and base64 the concatenation `iv ++
ciphertext`. -/
def encrypt (P : HostPrims K) (s : LupiStorage K) (iv : List Nat)
    (value : String) : String × LupiStorage K × List DeriveParams :=
  let r := getKey P s
  let encoded := P.utf8Encode value
  let encrypted := P.aesGcmEncrypt r.1 iv encoded
  (P.toBase64 (iv ++ encrypted), r.2.1, r.2.2)

/-- `LupiStorage.decrypt`: base64-decode, split the first 12 bytes as the
nonce, authenticated-decrypt the remainder, UTF-8-decode.  `Except.error`
models the exceptions the host throws (`atob` on malformed base64,
`crypto.subtle.decrypt` on authentication failure). -/
def decrypt (P : HostPrims K) (s : LupiStorage K) (value : String) :
    Except String String × LupiStorage K × List DeriveParams :=
  let r := getKey P s
  match P.fromBase64 value with
  | none => (.error "InvalidCharacterError", r.2.1, r.2.2)
  | some ivAndBuffer =>
    let iv := ivAndBuffer.take 12
    let buffer := ivAndBuffer.drop 12
    match P.aesGcmDecrypt r.1 iv buffer with
    | none => (.error "OperationError", r.2.1, r.2.2)
    | some decrypted => (.ok (P.utf8Decode decrypted), r.2.1, r.2.2)

end LupiStorage

/-- The browser's `localStorage`, a string-keyed string store.  The adapter
runs against `Option Medium`; `none` models a host without
`window`/`localStorage`. -/
def Medium : Type := String → Option String

/-- `localStorage.setItem`. -/
def setItem (m : Medium) (key value : String) : Medium :=
  fun k => if k = key then some value else m k

/-- `String(value)` on the non-object branch of `LupiStorage.set` (numbers,
booleans, strings, `undefined`).  The object/array branch never reaches it,
because `typeof` yields `"object"` there; those cases are given a dummy
image. -/
def strOfPrim : JSValue → String
  | .num n => toString n
  | .bool b => if b then "true" else "false"
  | .str s => s
  | .undefined => "undefined"
  | _ => ""

namespace LupiStorage

variable {K : Type}

/-- The tagged envelope `{ type, value }` built by `LupiStorage.set` before
serialization: the type tag and the stringified payload of a value. -/
def envelopeOf (P : HostPrims K) (value : JSValue) : JSValue :=
  if jsTypeof value = "object" ∨ isArray value then
    .obj [("type", .str (if isArray value then "array" else "object")),
          ("value", .str (P.jsonStringify value))]
  else
    .obj [("type", .str (jsTypeof value)), ("value", .str (strOfPrim value))]

/-- `LupiStorage.set`: wrap the value in the tagged envelope, serialize it,
encrypt when a passphrase is configured, and store it under `key`.  Returns
the updated medium, the updated adapter state and the key-derivation calls
made. -/
def set (P : HostPrims K) (s : LupiStorage K) (iv : List Nat)
    (med : Option Medium) (key : String) (value : JSValue) :
    Option Medium × LupiStorage K × List DeriveParams :=
  match med with
  | none => (none, s, [])
  | some m =>
    if key = "" then (some m, s, [])
    else
      let dataToStore := P.jsonStringify (envelopeOf P value)
      if truthy s.encryptKey then
        let r := encrypt P s iv dataToStore
        (some (setItem m key r.1), r.2.1, r.2.2)
      else
        (some (setItem m key dataToStore), s, [])

/-- The `switch (type)` of `LupiStorage.get`, reconstructing a value from
the envelope's tag and payload.  `Except.error` models the exceptions the
host throws inside the `try` block (`SyntaxError` from `JSON.parse`). -/
def reconstruct (P : HostPrims K) (typeTag payload : JSValue) :
    Except String JSValue :=
  match typeTag with
  | .str "number" => .ok (P.jsToNumber payload)
  | .str "boolean" =>
    .ok (.bool (match payload with
                | .str s => s = "true"
                | _ => false))
  | .str "object" | .str "array" =>
    let text := match payload with
                | .str s => s
                | other => P.jsToString other
    match P.jsonParse text with
    | none => .error "SyntaxError"
    | some v => .ok v
  | _ => .ok payload

/-- The body of the `try` block of `LupiStorage.get`: read the record,
decrypt it when a passphrase is configured, parse the envelope and
reconstruct the value from its tag.  `Except.error` models an exception
escaping the `try` block. -/
def getAttempt (P : HostPrims K) (s : LupiStorage K) (m : Medium)
    (key : String) :
    Except String (Option JSValue) × LupiStorage K × List DeriveParams :=
  match m key with
  | none => (.ok none, s, [])
  | some savedState =>
    if savedState = "" then (.ok none, s, [])
    else
      let r := if truthy s.encryptKey then decrypt P s savedState
               else (.ok savedState, s, [])
      match r.1 with
      | .error e => (.error e, r.2.1, r.2.2)
      | .ok decrypted =>
        match P.jsonParse decrypted with
        | none => (.error "SyntaxError", r.2.1, r.2.2)
        | some parsed =>
          if isNullish parsed then (.error "TypeError", r.2.1, r.2.2)
          else
            match reconstruct P (getField parsed "type")
                (getField parsed "value") with
            | .error e => (.error e, r.2.1, r.2.2)
            | .ok v => (.ok (some v), r.2.1, r.2.2)

/-- `LupiStorage.get`: absent when the key is falsy or the medium is
unavailable; otherwise run the `try` block, and catch every exception into
an absent result (`return null` in the `catch`). -/
def get (P : HostPrims K) (s : LupiStorage K) (med : Option Medium)
    (key : String) : Option JSValue × LupiStorage K × List DeriveParams :=
  match med with
  | none => (none, s, [])
  | some m =>
    if key = "" then (none, s, [])
    else
      let r := getAttempt P s m key
      match r.1 with
      | .error _ => (none, r.2.1, r.2.2)
      | .ok v => (v, r.2.1, r.2.2)

/-- One public cryptographic operation of the adapter. -/
inductive CryptoOp where
  | enc (iv : List Nat) (msg : String)
  | dec (payload : String)

/-- Run one `encrypt`/`decrypt` call, keeping the adapter state and the
key-derivation calls it performed. -/
def applyOp (P : HostPrims K) (s : LupiStorage K) :
    CryptoOp → LupiStorage K × List DeriveParams
  | .enc iv msg => (encrypt P s iv msg).2
  | .dec payload => (decrypt P s payload).2

/-- Run a sequence of `encrypt`/`decrypt` calls, accumulating every
key-derivation call performed over the whole run. -/
def runOps (P : HostPrims K) (s : LupiStorage K) :
    List CryptoOp → LupiStorage K × List DeriveParams
  | [] => (s, [])
  | op :: ops =>
    let r := applyOp P s op
    let rest := runOps P r.1 ops
    (rest.1, r.2 ++ rest.2)

/-- The derivation parameters hard-coded in `LupiStorage.getKey`. -/
def stdParams (encryptKey : Option String) : DeriveParams :=
  { passphrase := encryptKey, salt := "salt", iterations := 100000,
    hash := "SHA-256", algo := "AES-GCM", length := 256 }

end LupiStorage

/-! ## The `Store` class

Single-threaded operational model of the `Store<T, A>` class of
`src/store.ts`: the instance fields, the host's timer queue and clock, and
a log of the observable events (adapter calls, listener invocations).
Listeners are identified by numbers standing for callback references; the
`Set` of listeners is a duplicate-free list in insertion order.  Each
public method is one step; the resolution of the constructor's
`_loadState(...).then(...)` promise and the passage of time (which fires
due `setTimeout` callbacks) are separate steps, since they are scheduled
asynchronously by the host. -/

/-- An observable event: a call into the persistence adapter, or a listener
invocation.  Every event records the clock at which it happened. -/
inductive Ev where
  | aGet (t : Nat) (key : String)
  | aSet (t : Nat) (key : String) (v : JSValue)
  | notify (t : Nat) (l : Nat) (v : JSValue)

/-- A pending `setTimeout` registration owned by the store's debounce. -/
structure Timer where
  id : Nat
  fireAt : Nat
  deriving DecidableEq

/-- An instance of `Store` together with the host state it interacts with:
the clock, the pending timers, the host's microtask queue of deferred
listener-notification passes, and the event log.

Every mutating method runs `this.state = ...` and the body of
`_persistState` synchronously, but then `await`s before
`this.listeners.forEach(...)`: the notification pass is a continuation on
the microtask queue, and it reads `this.state` and `this.listeners` only
when it runs.  Since all queued passes are this same closure over `this`,
the queue is modelled by the counter `pendingNotify`. -/
structure StoreW where
  initialState : JSValue
  state : JSValue
  listeners : List Nat
  storageKey : Option String
  actions : List (String × (JSValue → List JSValue → JSValue))
  debounceTimeout : Option Nat
  pendingNotify : Nat
  now : Nat
  timers : List Timer
  nextTimerId : Nat
  events : List Ev

/-- `new Store(initialState, { storage, storageKey, actions })`.  The
constructor stores its arguments, seeds the in-memory state with
`initialState`, and calls `_loadState`, whose body synchronously invokes
`storage.get(storageKey)` when a truthy key is configured (logged here);
the `.then` continuation is the separate `resolveLoad` step. -/
def mkStore (initialState : JSValue) (storageKey : Option String)
    (actions : List (String × (JSValue → List JSValue → JSValue))) :
    StoreW :=
  { initialState := initialState, state := initialState, listeners := [],
    storageKey := storageKey, actions := actions, debounceTimeout := none,
    pendingNotify := 0,
    now := 0, timers := [],
    nextTimerId := 0,
    events := if truthy storageKey then [.aGet 0 (storageKey.getD "")] else [] }

/-- `Store._persistState`: cancel the pending debounce timer, if any, and
schedule a fresh write 300 ms from now. -/
def persistState (w : StoreW) : StoreW :=
  let timers1 := match w.debounceTimeout with
    | some tid => w.timers.filter (fun t => t.id ≠ tid)
    | none => w.timers
  { w with
    timers := timers1 ++ [{ id := w.nextTimerId, fireAt := w.now + 300 }],
    debounceTimeout := some w.nextTimerId,
    nextTimerId := w.nextTimerId + 1 }

/-- `this.listeners.forEach((callback) => callback(this.state))`. -/
def notifyAll (w : StoreW) : StoreW :=
  { w with
    events := w.events ++ w.listeners.map (fun l => .notify w.now l w.state) }

/-- The synchronous prefix of every mutating method (`update`, `set`,
`reset`, and the found-action branch of `dispatch`): assign the new state
and arm the debounced persistence.  The method then `await`s the resolved
promise of `_persistState`, so its `listeners.forEach(...)` is deferred:
one notification pass is queued (`pendingNotify`), to run as a later host
microtask — the `microtask` command. -/
def mutate (w : StoreW) (newState : JSValue) : StoreW :=
  let w1 := persistState { w with state := newState }
  { w1 with pendingNotify := w1.pendingNotify + 1 }

/-- The call behaviour of a member JavaScript object literals inherit from
`Object.prototype`, as exercised by `this.actions[name](this.state,
...args)` on values of the modelled universe. -/
inductive ProtoCall where
  | returns (f : JSValue → List JSValue → JSValue)
  | throws
  | unmodelled

/-- The members every object literal inherits from `Object.prototype`.
`this.actions[actionName]` finds these when no action of that name is
declared, and each is truthy, so the guard of `dispatch` takes the
mutation branch.  `toString` and `toLocaleString` applied to the actions
object return the string `"[object Object]"`.  `__proto__` is not
callable and `__defineGetter__`/`__defineSetter__` require a callable
second argument that no modelled value is, so calling them throws a
`TypeError` before the state assignment.  The remaining members are
recorded by name only (their results — host objects, wrapper objects, or
string-coercion-dependent booleans — lie outside the modelled value
universe); dispatching them is modelled as leaving the store unchanged,
and no theorem of this file relies on that choice. -/
def objectProtoMembers : List (String × ProtoCall) :=
  [("constructor", .unmodelled),
   ("hasOwnProperty", .unmodelled),
   ("isPrototypeOf", .unmodelled),
   ("propertyIsEnumerable", .unmodelled),
   ("toLocaleString", .returns (fun _ _ => .str "[object Object]")),
   ("toString", .returns (fun _ _ => .str "[object Object]")),
   ("valueOf", .unmodelled),
   ("__defineGetter__", .throws),
   ("__defineSetter__", .throws),
   ("__lookupGetter__", .unmodelled),
   ("__lookupSetter__", .unmodelled),
   ("__proto__", .throws)]

/-- First-match lookup in the prototype-member table. -/
def lookupProto : List (String × ProtoCall) → String → Option ProtoCall
  | [], _ => none
  | (n, c) :: rest, name => if n = name then some c else lookupProto rest name

/-- A command driving the store: one public method call, the resolution of
the constructor's load, the running of one queued notification pass, or
the passage of `dt` ms of host time. -/
inductive Cmd where
  | subscribe (l : Nat)
  | unsubscribe (l : Nat)
  | update (f : JSValue → JSValue)
  | setFields (fs : List (String × JSValue))
  | reset
  | dispatch (name : String) (args : List JSValue)
  | resolveLoad (r : Option JSValue)
  | microtask
  | elapse (dt : Nat)

/-- JS spread of a value into an object literal: objects contribute their
fields, arrays and strings their indexed elements, primitives nothing. -/
def spreadEntries : JSValue → List (String × JSValue)
  | .obj fs => fs
  | .arr es => es.enum.map (fun p => (toString p.1, p.2))
  | .str s => s.data.enum.map (fun p => (toString p.1, .str (String.mk [p.2])))
  | _ => []

/-- Override or append one field of an object's field list. -/
def setEntry : List (String × JSValue) → String → JSValue →
    List (String × JSValue)
  | [], k, v => [(k, v)]
  | (k', v') :: rest, k, v =>
    if k' = k then (k, v) :: rest else (k', v') :: setEntry rest k v

/-- `{ ...base, ...upd }`: the fields of `base` with those of `upd` merged
over them. -/
def mergeEntries (base upd : List (String × JSValue)) :
    List (String × JSValue) :=
  upd.foldl (fun acc kv => setEntry acc kv.1 kv.2) base

/-- First-match lookup of an action in the actions declaration
(`this.actions[actionName]`). -/
def lookupAction : List (String × (JSValue → List JSValue → JSValue)) →
    String → Option (JSValue → List JSValue → JSValue)
  | [], _ => none
  | (n, f) :: rest, name => if n = name then some f else lookupAction rest name

/-- One step of the store.  `dispatch` looks `actionName` up as JavaScript
property access does — own declarations first, then the `Object.prototype`
chain; only a miss on both reaches the `console.debug` branch.  A
prototype member that throws when called rejects `dispatch`'s promise
before the state assignment, leaving the store untouched.  (`dispatch`'s
state assignment itself sits after `await`ing the action's result; the
step models the call through that continuation, and only the notification
pass, shared with the other mutators, is a separate microtask.)
`microtask` runs one queued notification pass: `listeners.forEach` over
the registry and state current at that moment.  `elapse dt` advances the
clock and runs every due `setTimeout` callback: the debounced write logs
an adapter `set` of the *current* state when a truthy storage key is
configured. -/
def step (w : StoreW) : Cmd → StoreW
  | .subscribe l =>
    if l ∈ w.listeners then w else { w with listeners := w.listeners ++ [l] }
  | .unsubscribe l =>
    { w with listeners := w.listeners.filter (fun x => x ≠ l) }
  | .update f => mutate w (f w.state)
  | .setFields fs =>
    mutate w (.obj (mergeEntries (spreadEntries w.state) fs))
  | .reset => mutate w w.initialState
  | .dispatch name args =>
    match lookupAction w.actions name with
    | some f => mutate w (f w.state args)
    | none =>
      match lookupProto objectProtoMembers name with
      | some (.returns f) => mutate w (f w.state args)
      | some .throws => w
      | some .unmodelled => w
      | none => w
  | .microtask =>
    if w.pendingNotify = 0 then w
    else notifyAll { w with pendingNotify := w.pendingNotify - 1 }
  | .resolveLoad r =>
    let loaded :=
      if truthy w.storageKey then
        match r with
        | some v => if isNullish v then w.initialState else v
        | none => w.initialState
      else w.initialState
    let w1 := { w with state := loaded }
    notifyAll w1
  | .elapse dt =>
    let now1 := w.now + dt
    let fired := w.timers.filter (fun t => t.fireAt ≤ now1)
    let kept := w.timers.filter (fun t => ¬ t.fireAt ≤ now1)
    let written : List Ev :=
      if truthy w.storageKey then
        fired.map (fun t => .aSet t.fireAt (w.storageKey.getD "") w.state)
      else []
    { w with now := now1, timers := kept, events := w.events ++ written }

/-- Run a command sequence against a store. -/
def run (w : StoreW) (cmds : List Cmd) : StoreW := cmds.foldl step w

/-- The adapter calls among a list of events. -/
def adapterEvents (evs : List Ev) : List Ev :=
  evs.filter (fun e => match e with
    | .aGet _ _ => true
    | .aSet _ _ _ => true
    | .notify _ _ _ => false)

/-- The adapter writes among a list of events. -/
def adapterSetEvents (evs : List Ev) : List Ev :=
  evs.filter (fun e => match e with
    | .aSet _ _ _ => true
    | _ => false)

/-- The values delivered to listener `l`, in order. -/
def notifyValuesTo (l : Nat) (evs : List Ev) : List JSValue :=
  evs.filterMap (fun e => match e with
    | .notify _ l' v => if l' = l then some v else none
    | _ => none)

/-- The events a step appended to the log. -/
def newEvents (w : StoreW) (c : Cmd) : List Ev :=
  (step w c).events.drop w.events.length

/-- The value `savedState ?? initialState` the load resolution installs:
the loaded value when present (and not nullish), the construction-time
initial value otherwise. -/
def loadedVal (w : StoreW) (r : Option JSValue) : JSValue :=
  match r with
  | some v => if isNullish v then w.initialState else v
  | none => w.initialState

/-- How many invocations listener `l` received among the given events. -/
def countNotifyTo (l : Nat) (evs : List Ev) : Nat :=
  (notifyValuesTo l evs).length

/-- The updater functions of a command sequence, in order. -/
def updatersOf (cmds : List Cmd) : List (JSValue → JSValue) :=
  cmds.filterMap (fun c => match c with
    | .update f => some f
    | _ => none)

/-- Commands that are `update` calls or mere passage of time. -/
def isUpdateOrElapse (c : Cmd) : Prop :=
  (∃ f, c = .update f) ∨ (∃ dt, c = .elapse dt)

/-- Timer-queue sanity of a store: every pending timer is the one tracked
by `debounceTimeout`, and there is at most one. -/
def timerInv (w : StoreW) : Prop :=
  (∀ t ∈ w.timers, w.debounceTimeout = some t.id) ∧ w.timers.length ≤ 1

/-! ## Derived forms of the adapter's encrypted write, used to phrase the
host-primitive laws of the round-trip theorem at their points of use. -/

/-- The key `LupiStorage.getKey` derives on first use. -/
def kdOf {K : Type} (P : HostPrims K) (ek : String) : K :=
  P.deriveKey (LupiStorage.stdParams (some ek))

/-- The serialized tagged envelope `LupiStorage.set` builds for a value. -/
def dataOf {K : Type} (P : HostPrims K) (v : JSValue) : String :=
  P.jsonStringify (LupiStorage.envelopeOf P v)

/-- Its UTF-8 encoding, the AES-GCM plaintext. -/
def bytesOf {K : Type} (P : HostPrims K) (v : JSValue) : List Nat :=
  P.utf8Encode (dataOf P v)

/-- The ciphertext produced under the derived key and the nonce `iv`. -/
def ctOf {K : Type} (P : HostPrims K) (ek : String) (iv : List Nat)
    (v : JSValue) : List Nat :=
  P.aesGcmEncrypt (kdOf P ek) iv (bytesOf P v)

/-- The base64 record the encrypted adapter stores in the medium. -/
def storedOf {K : Type} (P : HostPrims K) (ek : String) (iv : List Nat)
    (v : JSValue) : String :=
  P.toBase64 (iv ++ ctOf P ek iv v)

/-- The type tag `LupiStorage.set` records for a value. -/
def tagOf (v : JSValue) : String :=
  if jsTypeof v = "object" ∨ isArray v then
    (if isArray v then "array" else "object")
  else jsTypeof v

/-- The stringified payload `LupiStorage.set` records for a value. -/
def payloadOf {K : Type} (P : HostPrims K) (v : JSValue) : String :=
  if jsTypeof v = "object" ∨ isArray v then P.jsonStringify v
  else strOfPrim v

/-- Host primitives rigged for the concrete round-trip witness: every
primitive is a total function whose inverse law holds (by computation) at
the values the witness exercises. -/
def rtPrims : HostPrims Unit :=
  { deriveKey := fun _ => ()
    utf8Encode := fun _ => [7]
    utf8Decode := fun _ => "ENV"
    aesGcmEncrypt := fun _ _ _ => [9]
    aesGcmDecrypt := fun _ _ _ => some [7]
    toBase64 := fun _ => "B"
    fromBase64 := fun _ => some (List.replicate 12 0 ++ [9])
    jsonStringify := fun x => match x with | .obj _ => "ENV" | _ => "PAY"
    jsonParse := fun _ => some (.obj [("type", .str "number"),
                                      ("value", .str "3")])
    jsToString := fun _ => ""
    jsToNumber := fun _ => .num 3 }

/-- Host primitives whose base64 decoder always fails, for the witness of
the failure-absorption theorem (`atob` throwing on malformed input). -/
def failPrims : HostPrims Unit :=
  { deriveKey := fun _ => ()
    utf8Encode := fun _ => []
    utf8Decode := fun _ => ""
    aesGcmEncrypt := fun _ _ _ => []
    aesGcmDecrypt := fun _ _ _ => none
    toBase64 := fun _ => ""
    fromBase64 := fun _ => none
    jsonStringify := fun _ => ""
    jsonParse := fun _ => none
    jsToString := fun _ => ""
    jsToNumber := fun _ => .undefined }

/-- A medium holding the same corrupted record under every key. -/
def garbageMedium : Medium := fun _ => some "garbage"

namespace LupiStorage

variable {K : Type}

theorem getKey_cached (P : HostPrims K) (s : LupiStorage K) (k : K)
    (h : s.cachedKey = some k) : getKey P s = (k, s, []) := by
  simp [getKey, h]

theorem getKey_uncached (P : HostPrims K) (s : LupiStorage K)
    (h : s.cachedKey = none) :
    getKey P s = (P.deriveKey (stdParams s.encryptKey),
      { s with cachedKey := some (P.deriveKey (stdParams s.encryptKey)) },
      [stdParams s.encryptKey]) := by
  simp [getKey, h, stdParams]

theorem applyOp_cached (P : HostPrims K) (s : LupiStorage K) (k : K)
    (h : s.cachedKey = some k) (op : CryptoOp) : applyOp P s op = (s, []) := by
  cases op with
  | enc iv msg => simp [applyOp, encrypt, getKey_cached P s k h]
  | dec payload =>
    simp only [applyOp, decrypt, getKey_cached P s k h]
    cases P.fromBase64 payload with
    | none => rfl
    | some bs =>
      simp only []
      cases P.aesGcmDecrypt k (bs.take 12) (bs.drop 12) <;> rfl

theorem applyOp_uncached (P : HostPrims K) (s : LupiStorage K)
    (h : s.cachedKey = none) (op : CryptoOp) :
    applyOp P s op =
      ({ s with cachedKey := some (P.deriveKey (stdParams s.encryptKey)) },
       [stdParams s.encryptKey]) := by
  cases op with
  | enc iv msg => simp [applyOp, encrypt, getKey_uncached P s h]
  | dec payload =>
    simp only [applyOp, decrypt, getKey_uncached P s h]
    cases P.fromBase64 payload with
    | none => rfl
    | some bs =>
      simp only []
      cases P.aesGcmDecrypt (P.deriveKey (stdParams s.encryptKey))
          (bs.take 12) (bs.drop 12) <;> rfl

theorem runOps_cached (P : HostPrims K) (s : LupiStorage K) (k : K)
    (h : s.cachedKey = some k) (ops : List CryptoOp) :
    runOps P s ops = (s, []) := by
  induction ops with
  | nil => rfl
  | cons op ops ih =>
    simp [runOps, applyOp_cached P s k h, ih]

theorem envelopeOf_eq (P : HostPrims K) (v : JSValue) :
    envelopeOf P v = .obj [("type", .str (tagOf v)),
                           ("value", .str (payloadOf P v))] := by
  unfold envelopeOf tagOf payloadOf
  split <;> rfl

theorem truthy_some {s : String} (h : s ≠ "") : truthy (some s) = true := by
  simp [truthy, h]

theorem set_encrypted (P : HostPrims K) (ek key : String) (iv : List Nat)
    (m : Medium) (v : JSValue) (hek : ek ≠ "") (hkey : key ≠ "") :
    set P (mkStorage (some ek)) iv (some m) key v =
      (some (setItem m key (storedOf P ek iv v)),
       { encryptKey := some ek, cachedKey := some (kdOf P ek) },
       [stdParams (some ek)]) := by
  simp [set, hkey, truthy, hek, encrypt, getKey, mkStorage,
        storedOf, ctOf, bytesOf, dataOf, kdOf, stdParams]

theorem get_after_set (P : HostPrims K) (ek key : String) (iv : List Nat)
    (m : Medium) (v : JSValue) (hek : ek ≠ "") (hkey : key ≠ "")
    (hiv : iv.length = 12)
    (hne : storedOf P ek iv v ≠ "")
    (hb64 : P.fromBase64 (storedOf P ek iv v) = some (iv ++ ctOf P ek iv v))
    (haes : P.aesGcmDecrypt (kdOf P ek) iv (ctOf P ek iv v) =
      some (bytesOf P v))
    (hutf8 : P.utf8Decode (bytesOf P v) = dataOf P v)
    (henv : P.jsonParse (dataOf P v) = some (envelopeOf P v)) :
    (get P (set P (mkStorage (some ek)) iv (some m) key v).2.1
        (set P (mkStorage (some ek)) iv (some m) key v).1 key).1 =
      match reconstruct P (.str (tagOf v)) (.str (payloadOf P v)) with
      | .ok x => some x
      | .error _ => none := by
  rw [set_encrypted P ek key iv m v hek hkey]
  have hitem : setItem m key (storedOf P ek iv v) key =
      some (storedOf P ek iv v) := by simp [setItem]
  have hdec : decrypt P
      { encryptKey := some ek, cachedKey := some (kdOf P ek) }
      (storedOf P ek iv v) =
      (.ok (dataOf P v),
       { encryptKey := some ek, cachedKey := some (kdOf P ek) }, []) := by
    have hk : getKey P
        { encryptKey := some ek, cachedKey := some (kdOf P ek) } =
        (kdOf P ek,
         { encryptKey := some ek, cachedKey := some (kdOf P ek) }, []) :=
      getKey_cached P _ _ rfl
    have ht : (iv ++ ctOf P ek iv v).take 12 = iv := by
      rw [← hiv]; exact List.take_left iv _
    have hd : (iv ++ ctOf P ek iv v).drop 12 = ctOf P ek iv v := by
      rw [← hiv]; exact List.drop_left iv _
    simp only [decrypt, hk, hb64, ht, hd, haes, hutf8]
  simp [get, getAttempt, hitem, hdec, hkey, hne, truthy_some hek,
        henv, envelopeOf_eq, isNullish, getField, lookupEntry]
  cases hr : reconstruct P (.str (tagOf v)) (.str (payloadOf P v)) <;>
    simp [hr]

end LupiStorage

theorem run_nil (w : StoreW) : run w [] = w := rfl

theorem run_cons (w : StoreW) (c : Cmd) (cmds : List Cmd) :
    run w (c :: cmds) = run (step w c) cmds := rfl

theorem step_initialState (w : StoreW) (c : Cmd) :
    (step w c).initialState = w.initialState := by
  cases c <;> simp only [step, mutate, notifyAll, persistState] <;>
    (repeat' split) <;> rfl

theorem step_storageKey (w : StoreW) (c : Cmd) :
    (step w c).storageKey = w.storageKey := by
  cases c <;> simp only [step, mutate, notifyAll, persistState] <;>
    (repeat' split) <;> rfl

theorem run_initialState (w : StoreW) (cmds : List Cmd) :
    (run w cmds).initialState = w.initialState := by
  induction cmds generalizing w with
  | nil => rfl
  | cons c rest ih => rw [run_cons, ih, step_initialState]

theorem run_storageKey (w : StoreW) (cmds : List Cmd) :
    (run w cmds).storageKey = w.storageKey := by
  induction cmds generalizing w with
  | nil => rfl
  | cons c rest ih => rw [run_cons, ih, step_storageKey]

theorem mutate_events (w : StoreW) (ns : JSValue) :
    (mutate w ns).events = w.events := rfl

theorem mutate_state (w : StoreW) (ns : JSValue) :
    (mutate w ns).state = ns := rfl

theorem mutate_listeners (w : StoreW) (ns : JSValue) :
    (mutate w ns).listeners = w.listeners := rfl

theorem mutate_now (w : StoreW) (ns : JSValue) :
    (mutate w ns).now = w.now := rfl

theorem mutate_pendingNotify (w : StoreW) (ns : JSValue) :
    (mutate w ns).pendingNotify = w.pendingNotify + 1 := rfl

theorem newEvents_update (w : StoreW) (f : JSValue → JSValue) :
    newEvents w (.update f) = [] := by
  show ((mutate w (f w.state)).events).drop w.events.length = []
  rw [mutate_events]
  exact List.drop_length _

theorem newEvents_setFields (w : StoreW) (fs : List (String × JSValue)) :
    newEvents w (.setFields fs) = [] := by
  show ((mutate w _).events).drop w.events.length = []
  rw [mutate_events]
  exact List.drop_length _

theorem newEvents_reset (w : StoreW) :
    newEvents w .reset = [] := by
  show ((mutate w w.initialState).events).drop w.events.length = []
  rw [mutate_events]
  exact List.drop_length _

theorem step_microtask (w : StoreW) (h : w.pendingNotify ≠ 0) :
    step w .microtask =
      notifyAll { w with pendingNotify := w.pendingNotify - 1 } := by
  simp only [step, if_neg h]

theorem newEvents_microtask (w : StoreW) (h : w.pendingNotify ≠ 0) :
    newEvents w .microtask =
      w.listeners.map (fun l => .notify w.now l w.state) := by
  show ((step w .microtask).events).drop w.events.length = _
  rw [step_microtask w h]
  simp only [notifyAll]
  exact List.drop_left _ _

theorem newEvents_resolveLoad (w : StoreW) (r : Option JSValue) :
    newEvents w (.resolveLoad r) =
      w.listeners.map (fun l =>
        .notify w.now l (step w (.resolveLoad r)).state) := by
  show ((notifyAll _).events).drop w.events.length = _
  simp only [notifyAll]
  exact List.drop_left _ _

theorem newEvents_elapse (w : StoreW) (dt : Nat) :
    newEvents w (.elapse dt) =
      (if truthy w.storageKey then
        (w.timers.filter (fun t => t.fireAt ≤ w.now + dt)).map
          (fun t => Ev.aSet t.fireAt (w.storageKey.getD "") w.state)
      else []) := by
  show ((step w (.elapse dt)).events).drop w.events.length = _
  simp only [step]
  exact List.drop_left _ _

theorem timers_persist (w : StoreW) (h : timerInv w) :
    (persistState w).timers =
      [{ id := w.nextTimerId, fireAt := w.now + 300 }] := by
  unfold persistState
  cases hd : w.debounceTimeout with
  | none =>
    have hnil : w.timers = [] := by
      cases ht : w.timers with
      | nil => rfl
      | cons t ts =>
        have := h.1 t (by rw [ht]; exact List.mem_cons_self t ts)
        rw [hd] at this
        exact absurd this (by simp)
    simp [hnil]
  | some tid =>
    have hnil : w.timers.filter (fun t => t.id ≠ tid) = [] := by
      rw [List.filter_eq_nil_iff]
      intro t htm
      have := h.1 t htm
      rw [hd] at this
      injection this with h2
      simp [h2]
    simp only [hnil, List.nil_append]

theorem timerInv_persist (w : StoreW) (h : timerInv w) :
    timerInv (persistState w) := by
  constructor
  · intro t ht
    rw [timers_persist w h] at ht
    simp only [List.mem_singleton] at ht
    subst ht
    rfl
  · rw [timers_persist w h]
    simp

theorem timerInv_step (w : StoreW) (c : Cmd) (h : timerInv w) :
    timerInv (step w c) := by
  cases c with
  | subscribe l =>
    simp only [step]
    split <;> exact h
  | unsubscribe l => exact h
  | update f => exact timerInv_persist _ h
  | setFields fs => exact timerInv_persist _ h
  | reset => exact timerInv_persist _ h
  | dispatch n a =>
    simp only [step]
    cases lookupAction w.actions n with
    | some f => exact timerInv_persist _ h
    | none =>
      cases lookupProto objectProtoMembers n with
      | none => exact h
      | some c =>
        cases c with
        | returns f => exact timerInv_persist _ h
        | throws => exact h
        | unmodelled => exact h
  | microtask =>
    simp only [step]
    split <;> exact h
  | resolveLoad r => exact h
  | elapse dt =>
    refine ⟨?_, ?_⟩
    · intro t ht
      simp only [step] at ht ⊢
      exact h.1 t (List.mem_of_mem_filter ht)
    · simp only [step]
      exact le_trans (List.length_filter_le _ _) h.2

theorem timerInv_run (w : StoreW) (cmds : List Cmd) (h : timerInv w) :
    timerInv (run w cmds) := by
  induction cmds generalizing w with
  | nil => exact h
  | cons c rest ih => exact ih _ (timerInv_step w c h)

theorem timerInv_mkStore (v0 : JSValue) (key : Option String)
    (acts : List (String × (JSValue → List JSValue → JSValue))) :
    timerInv (mkStore v0 key acts) :=
  ⟨fun t ht => absurd ht (List.not_mem_nil t), by simp [mkStore]⟩

theorem adapterEvents_append (a b : List Ev) :
    adapterEvents (a ++ b) = adapterEvents a ++ adapterEvents b := by
  simp [adapterEvents]

theorem adapterEvents_notifies (xs : List Nat) (t : Nat) (v : JSValue) :
    adapterEvents (xs.map (fun l => Ev.notify t l v)) = [] := by
  simp [adapterEvents]

theorem adapterEvents_step_none (w : StoreW) (c : Cmd)
    (hkey : w.storageKey = none) :
    adapterEvents (step w c).events = adapterEvents w.events := by
  cases c with
  | subscribe l =>
    simp only [step]
    split <;> rfl
  | unsubscribe l => rfl
  | update f =>
    show adapterEvents (mutate w _).events = _
    rw [mutate_events]
  | setFields fs =>
    show adapterEvents (mutate w _).events = _
    rw [mutate_events]
  | reset =>
    show adapterEvents (mutate w _).events = _
    rw [mutate_events]
  | dispatch n a =>
    simp only [step]
    cases lookupAction w.actions n with
    | some f =>
      show adapterEvents (mutate w _).events = _
      rw [mutate_events]
    | none =>
      cases lookupProto objectProtoMembers n with
      | none => rfl
      | some c =>
        cases c with
        | returns f =>
          show adapterEvents (mutate w _).events = _
          rw [mutate_events]
        | throws => rfl
        | unmodelled => rfl
  | microtask =>
    simp only [step]
    split
    · rfl
    · show adapterEvents (notifyAll _).events = _
      simp only [notifyAll]
      rw [adapterEvents_append, adapterEvents_notifies, List.append_nil]
  | resolveLoad r =>
    show adapterEvents (notifyAll _).events = _
    simp only [notifyAll]
    rw [adapterEvents_append, adapterEvents_notifies, List.append_nil]
  | elapse dt =>
    simp only [step, hkey, truthy]
    rw [adapterEvents_append]
    simp [adapterEvents]

theorem adapterEvents_run_none (cmds : List Cmd) (w : StoreW)
    (hkey : w.storageKey = none) :
    adapterEvents (run w cmds).events = adapterEvents w.events := by
  induction cmds generalizing w with
  | nil => rfl
  | cons c rest ih =>
    rw [run_cons, ih _ (by rw [step_storageKey]; exact hkey),
      adapterEvents_step_none w c hkey]

theorem state_fold_run (cmds : List Cmd) (w : StoreW)
    (h : ∀ c ∈ cmds, isUpdateOrElapse c) :
    (run w cmds).state =
      (updatersOf cmds).foldl (fun s f => f s) w.state := by
  induction cmds generalizing w with
  | nil => rfl
  | cons c rest ih =>
    rcases h c (List.mem_cons_self c rest) with ⟨f, rfl⟩ | ⟨dt, rfl⟩
    · rw [run_cons]
      rw [ih (step w (.update f)) (fun d hd => h d (List.mem_cons_of_mem _ hd))]
      rfl
    · rw [run_cons]
      rw [ih (step w (.elapse dt)) (fun d hd => h d (List.mem_cons_of_mem _ hd))]
      rfl

theorem countNotifyTo_map (l t : Nat) (v : JSValue) (xs : List Nat) :
    countNotifyTo l (xs.map (fun x => Ev.notify t x v)) = xs.count l := by
  induction xs with
  | nil => rfl
  | cons x xs ih =>
    by_cases h : x = l <;>
      simp [countNotifyTo, notifyValuesTo, List.count_cons, h] at ih ⊢ <;>
      omega

theorem listeners_step_nodup (w : StoreW) (c : Cmd)
    (h : w.listeners.Nodup) : (step w c).listeners.Nodup := by
  cases c with
  | subscribe l =>
    by_cases hl : l ∈ w.listeners
    · simp only [step, if_pos hl]; exact h
    · simp only [step, if_neg hl]
      rw [List.nodup_append]
      exact ⟨h, List.nodup_singleton l,
        fun a ha hb => hl (by rwa [List.mem_singleton.1 hb] at ha)⟩
  | unsubscribe l => exact List.Nodup.filter _ h
  | update f => exact h
  | setFields fs => exact h
  | reset => exact h
  | dispatch n a =>
    simp only [step]
    cases lookupAction w.actions n with
    | some f => exact h
    | none =>
      cases lookupProto objectProtoMembers n with
      | none => exact h
      | some c => cases c <;> exact h
  | microtask =>
    simp only [step]
    split <;> exact h
  | resolveLoad r => exact h
  | elapse dt => exact h

theorem listeners_nodup_run (cmds : List Cmd) (w : StoreW)
    (h : w.listeners.Nodup) : (run w cmds).listeners.Nodup := by
  induction cmds generalizing w with
  | nil => exact h
  | cons c rest ih => exact ih _ (listeners_step_nodup w c h)

/-- C1: for every value of each supported type category (number, boolean,
object, array, string — `jsTypeof` is never `"undefined"` on these) and
every passphrase, storing through the Encrypted Adapter's `set` and reading
back with `get` on the same adapter returns the value, the type being
reconstructed from the recorded tag of the envelope.  The hypotheses are
the inverse laws of the host primitives (base64, AES-GCM, UTF-8, JSON,
number formatting) at the values this round trip feeds them. -/
theorem claim1_encrypted_roundtrip {K : Type} (P : HostPrims K)
    (ek key : String) (iv : List Nat) (m : Medium) (v : JSValue)
    (hek : ek ≠ "") (hkey : key ≠ "") (hiv : iv.length = 12)
    (hcat : jsTypeof v ≠ "undefined")
    (hne : storedOf P ek iv v ≠ "")
    (hb64 : P.fromBase64 (storedOf P ek iv v) = some (iv ++ ctOf P ek iv v))
    (haes : P.aesGcmDecrypt (kdOf P ek) iv (ctOf P ek iv v) =
      some (bytesOf P v))
    (hutf8 : P.utf8Decode (bytesOf P v) = dataOf P v)
    (henv : P.jsonParse (dataOf P v) = some (LupiStorage.envelopeOf P v))
    (hnum : jsTypeof v = "number" → P.jsToNumber (.str (strOfPrim v)) = v)
    (hjson : jsTypeof v = "object" →
      P.jsonParse (P.jsonStringify v) = some v) :
    (LupiStorage.get P
      (LupiStorage.set P (LupiStorage.mkStorage (some ek)) iv (some m)
        key v).2.1
      (LupiStorage.set P (LupiStorage.mkStorage (some ek)) iv (some m)
        key v).1 key).1 = some v := by
  rw [LupiStorage.get_after_set P ek key iv m v hek hkey hiv hne hb64 haes
    hutf8 henv]
  cases v with
  | num n =>
    simp [tagOf, payloadOf, jsTypeof, isArray, LupiStorage.reconstruct,
      hnum rfl]
  | bool b =>
    cases b <;>
      simp [tagOf, payloadOf, jsTypeof, isArray, LupiStorage.reconstruct,
        strOfPrim]
  | str s =>
    simp [tagOf, payloadOf, jsTypeof, isArray, LupiStorage.reconstruct,
      strOfPrim]
  | arr es =>
    simp [tagOf, payloadOf, jsTypeof, isArray, LupiStorage.reconstruct,
      hjson rfl]
  | obj fs =>
    simp [tagOf, payloadOf, jsTypeof, isArray, LupiStorage.reconstruct,
      hjson rfl]
  | null =>
    simp [tagOf, payloadOf, jsTypeof, isArray, LupiStorage.reconstruct,
      hjson rfl]
  | undefined => exact absurd rfl hcat

/-- Witness for C1: the round trip at the concrete value `3` under
passphrase `"pw"`, with host primitives satisfying the inverse laws at the
exercised values. -/
theorem claim1_encrypted_roundtrip_witness :
    (LupiStorage.get rtPrims
      (LupiStorage.set rtPrims (LupiStorage.mkStorage (some "pw"))
        (List.replicate 12 0) (some (fun _ => none)) "counter"
        (.num 3)).2.1
      (LupiStorage.set rtPrims (LupiStorage.mkStorage (some "pw"))
        (List.replicate 12 0) (some (fun _ => none)) "counter"
        (.num 3)).1 "counter").1 = some (.num 3) :=
  claim1_encrypted_roundtrip rtPrims "pw" "counter" (List.replicate 12 0)
    (fun _ => none) (.num 3) (by decide) (by decide) (by decide)
    (by decide) (by decide) rfl rfl rfl rfl (fun _ => rfl)
    (fun h => absurd h (by decide))

/-- C2: with a passphrase configured, whenever the adapter's authenticated
decryption of a stored record fails (wrong passphrase, tampering, malformed
base64), `get` returns absent and never lets the exception escape; the
second and third conjuncts exhibit the malformed-base64 and
authentication-failure cases concretely. -/
theorem claim2_decrypt_failure_absent {K : Type} (P : HostPrims K)
    (s : LupiStorage K) (m : Medium) (key stored : String)
    (hkey : key ≠ "") (hstored : m key = some stored) (hne : stored ≠ "")
    (henc : truthy s.encryptKey = true) :
    ((∃ e, (LupiStorage.decrypt P s stored).1 = Except.error e) →
      (LupiStorage.get P s (some m) key).1 = none) ∧
    (P.fromBase64 stored = none →
      (LupiStorage.get P s (some m) key).1 = none) ∧
    (∀ bs, P.fromBase64 stored = some bs →
      P.aesGcmDecrypt (LupiStorage.getKey P s).1 (bs.take 12)
        (bs.drop 12) = none →
      (LupiStorage.get P s (some m) key).1 = none) := by
  have main : ∀ e, (LupiStorage.decrypt P s stored).1 = Except.error e →
      (LupiStorage.get P s (some m) key).1 = none := by
    intro e he
    simp [LupiStorage.get, LupiStorage.getAttempt, hkey, hstored, hne,
      henc, he]
  refine ⟨fun h => main h.choose h.choose_spec,
    fun hb => main "InvalidCharacterError" ?_,
    fun bs hb ha => main "OperationError" ?_⟩
  · simp [LupiStorage.decrypt, hb]
  · simp [LupiStorage.decrypt, hb, ha]

/-- Witness for C2: a corrupted record under a valid passphrase, a base64
decoder that rejects it; `get` yields absent. -/
theorem claim2_decrypt_failure_absent_witness :
    ((LupiStorage.decrypt failPrims
        (LupiStorage.mkStorage (some "pw")) "garbage").1 =
      Except.error "InvalidCharacterError") ∧
    (LupiStorage.get failPrims (LupiStorage.mkStorage (some "pw"))
      (some garbageMedium) "counter").1 = none :=
  ⟨rfl,
    (claim2_decrypt_failure_absent failPrims
      (LupiStorage.mkStorage (some "pw")) garbageMedium "counter" "garbage"
      (by decide) rfl (by decide) (by decide)).1
      ⟨"InvalidCharacterError", rfl⟩⟩

/-- C9: across every sequence of `encrypt`/`decrypt` operations of one
adapter, the PBKDF2 key derivation is invoked at most once — on first use —
and always with 100000 iterations of SHA-256 over the fixed salt `"salt"`,
producing a 256-bit AES-GCM key; afterwards the cached key is reused. -/
theorem claim9_single_key_derivation {K : Type} (P : HostPrims K)
    (ek : Option String) (ops : List LupiStorage.CryptoOp) :
    (LupiStorage.runOps P (LupiStorage.mkStorage ek) ops).2 = [] ∨
    (LupiStorage.runOps P (LupiStorage.mkStorage ek) ops).2 =
      [{ passphrase := ek, salt := "salt", iterations := 100000,
         hash := "SHA-256", algo := "AES-GCM", length := 256 }] := by
  cases ops with
  | nil => exact Or.inl rfl
  | cons op rest =>
    right
    have h1 : LupiStorage.applyOp P (LupiStorage.mkStorage ek) op =
        ({ encryptKey := ek,
           cachedKey := some (P.deriveKey (LupiStorage.stdParams ek)) },
         [LupiStorage.stdParams ek]) := by
      simpa [LupiStorage.mkStorage, LupiStorage.stdParams] using
        LupiStorage.applyOp_uncached P (LupiStorage.mkStorage ek) rfl op
    have h2 := LupiStorage.runOps_cached P
      { encryptKey := ek,
        cachedKey := some (P.deriveKey (LupiStorage.stdParams ek)) }
      (P.deriveKey (LupiStorage.stdParams ek)) rfl rest
    simp only [LupiStorage.runOps, h1]
    rw [h2]
    simp [LupiStorage.stdParams]

/-- C3, counterexample: calling `set` while the store's value is the plain
number `5` does not fail — no `ContractViolation` exists anywhere in the
code — nor is it ignored: the state is silently replaced by the merge
result (the number spreads to nothing, the partial fields remain). -/
theorem claim3_counterexample :
    (step (mkStore (.num 5) none []) (.setFields [("a", .num 1)])).state =
      .obj [("a", .num 1)] ∧
    (mkStore (.num 5) none []).state = .num 5 ∧
    (JSValue.obj [("a", .num 1)]) ≠ .num 5 :=
  ⟨rfl, rfl, fun h => nomatch h⟩

/-- C3, amended: `set` never rejects a non-record value; on every store it
silently installs `{ ...state, ...partial }` — the spread of the current
value (empty for primitives) with the partial fields merged over it — and
the notification pass it queues, when it runs next, delivers that merge to
every registered listener. -/
theorem claim3_set_spreads_nonrecords (w : StoreW)
    (fs : List (String × JSValue)) :
    (step w (.setFields fs)).state =
      .obj (mergeEntries (spreadEntries w.state) fs) ∧
    newEvents (step w (.setFields fs)) .microtask =
      w.listeners.map (fun l => .notify w.now l
        (.obj (mergeEntries (spreadEntries w.state) fs))) := by
  refine ⟨rfl, ?_⟩
  rw [newEvents_microtask _ (Nat.succ_ne_zero w.pendingNotify)]
  rfl

/-- C4: when the asynchronous load resolves on a store with a storage key,
the in-memory value becomes the loaded value when present (else the initial
value) and exactly the currently registered listeners are notified with the
replacement; concretely (Scenario B), a listener subscribed only after the
load resolution never observes the pre-load initial `{count: 0}`, only
`{count: 6}` from the later mutation's notification pass, while the
earlier listener saw `{count: 5}` then `{count: 6}`. -/
theorem claim4_load_resolution :
    (∀ (w : StoreW) (r : Option JSValue) (k : String),
      w.storageKey = some k → k ≠ "" →
      (step w (.resolveLoad r)).state = loadedVal w r ∧
      newEvents w (.resolveLoad r) =
        w.listeners.map (fun l => .notify w.now l (loadedVal w r))) ∧
    notifyValuesTo 2 (run (mkStore (.obj [("count", .num 0)]) (some "k") [])
        [.subscribe 1, .resolveLoad (some (.obj [("count", .num 5)])),
         .subscribe 2, .update (fun _ => .obj [("count", .num 6)]),
         .microtask]).events =
      [.obj [("count", .num 6)]] ∧
    notifyValuesTo 1 (run (mkStore (.obj [("count", .num 0)]) (some "k") [])
        [.subscribe 1, .resolveLoad (some (.obj [("count", .num 5)])),
         .subscribe 2, .update (fun _ => .obj [("count", .num 6)]),
         .microtask]).events =
      [.obj [("count", .num 5)], .obj [("count", .num 6)]] := by
  refine ⟨?_, rfl, rfl⟩
  intro w r k hsk hk
  have htr : truthy w.storageKey = true := by
    rw [hsk]; exact LupiStorage.truthy_some hk
  have hstate : (step w (.resolveLoad r)).state = loadedVal w r := by
    cases r with
    | none => simp [step, loadedVal, htr, notifyAll]
    | some v => simp [step, loadedVal, htr, notifyAll]
  refine ⟨hstate, ?_⟩
  rw [newEvents_resolveLoad, hstate]

/-- Witness for C4 at a concrete store: resolving the load with `5`
installs `5` and notifies nobody (no listener yet). -/
theorem claim4_load_resolution_witness :
    (step (mkStore (.num 0) (some "k") []) (.resolveLoad (some (.num 5)))).state =
      loadedVal (mkStore (.num 0) (some "k") []) (some (.num 5)) ∧
    newEvents (mkStore (.num 0) (some "k") []) (.resolveLoad (some (.num 5))) =
      [] :=
  claim4_load_resolution.1 (mkStore (.num 0) (some "k") [])
    (some (.num 5)) "k" rfl (by decide)

/-- C5: every store ever has at most one pending debounce timer — each
mutation cancels and replaces the previous one — and in the concrete burst
(mutations at 0, 50 and 100 ms with the 300 ms quiet window, then
quiescence) the adapter receives exactly one write, at 400 ms, carrying the
state produced by the last mutation. -/
theorem claim5_debounce_coalescing (v0 : JSValue) (key : Option String)
    (acts : List (String × (JSValue → List JSValue → JSValue)))
    (cmds : List Cmd) :
    (run (mkStore v0 key acts) cmds).timers.length ≤ 1 ∧
    adapterSetEvents (run (mkStore (.num 0) (some "k") [])
        [.update (fun _ => .num 1), .elapse 50, .update (fun _ => .num 2),
         .elapse 50, .update (fun _ => .num 3), .elapse 300]).events =
      [.aSet 400 "k" (.num 3)] :=
  ⟨(timerInv_run _ cmds (timerInv_mkStore v0 key acts)).2, rfl⟩

/-- C6: a store constructed without a storage key never makes any adapter
call, whatever is done to it; and after any sequence of `update` calls
(with any amount of elapsed time in between) its state is the left fold of
the updaters over the initial value. -/
theorem claim6_no_key_pure_fold (v0 : JSValue)
    (acts : List (String × (JSValue → List JSValue → JSValue)))
    (cmds : List Cmd) :
    adapterEvents (run (mkStore v0 none acts) cmds).events = [] ∧
    ((∀ c ∈ cmds, isUpdateOrElapse c) →
      (run (mkStore v0 none acts) cmds).state =
        (updatersOf cmds).foldl (fun s f => f s) v0) := by
  constructor
  · rw [adapterEvents_run_none cmds _ rfl]
    rfl
  · intro h
    exact state_fold_run cmds _ h

/-- Witness for C6: two increments with idle time in between fold to `2`,
with an empty adapter log. -/
theorem claim6_no_key_pure_fold_witness :
    adapterEvents (run (mkStore (.num 0) none [])
      [.update (fun s => match s with | .num n => .num (n + 1) | v => v),
       .elapse 400,
       .update (fun s => match s with | .num n => .num (n + 1) | v => v)]).events
      = [] ∧
    (run (mkStore (.num 0) none [])
      [.update (fun s => match s with | .num n => .num (n + 1) | v => v),
       .elapse 400,
       .update (fun s => match s with | .num n => .num (n + 1) | v => v)]).state
      = (updatersOf
          [.update (fun s => match s with | .num n => .num (n + 1) | v => v),
           .elapse 400,
           .update (fun s => match s with | .num n => .num (n + 1) | v => v)]).foldl
          (fun s f => f s) (.num 0) := by
  refine ⟨(claim6_no_key_pure_fold (.num 0) [] _).1,
    (claim6_no_key_pure_fold (.num 0) [] _).2 ?_⟩
  intro c hc
  simp only [List.mem_cons, List.not_mem_nil, or_false] at hc
  rcases hc with rfl | rfl | rfl
  · exact Or.inl ⟨_, rfl⟩
  · exact Or.inr ⟨_, rfl⟩
  · exact Or.inl ⟨_, rfl⟩

/-- C7: after any history of mutations and load resolutions, `reset`
restores exactly the construction-time initial value and schedules a
debounced write which — fired after the quiet window with no further
mutation — sends that reset value to the adapter. -/
theorem claim7_reset_restores_initial (v0 : JSValue) (k : String)
    (acts : List (String × (JSValue → List JSValue → JSValue)))
    (cmds : List Cmd) (hk : k ≠ "") :
    (step (run (mkStore v0 (some k) acts) cmds) .reset).state = v0 ∧
    newEvents (step (run (mkStore v0 (some k) acts) cmds) .reset)
      (.elapse 300) =
      [.aSet ((run (mkStore v0 (some k) acts) cmds).now + 300) k v0] := by
  have hinit : (run (mkStore v0 (some k) acts) cmds).initialState = v0 := by
    rw [run_initialState]; rfl
  have hsk : (run (mkStore v0 (some k) acts) cmds).storageKey = some k := by
    rw [run_storageKey]; rfl
  have hinv := timerInv_run _ cmds (timerInv_mkStore v0 (some k) acts)
  set w := run (mkStore v0 (some k) acts) cmds with hw
  have hstate : (step w .reset).state = v0 := by
    show (mutate w w.initialState).state = v0
    rw [← hinit]; rfl
  refine ⟨hstate, ?_⟩
  have htimers : (step w .reset).timers =
      [{ id := w.nextTimerId, fireAt := w.now + 300 }] := by
    show (persistState { w with state := w.initialState }).timers = _
    exact timers_persist _ hinv
  have hsk2 : (step w .reset).storageKey = some k := by
    rw [step_storageKey]; exact hsk
  have hnow : (step w .reset).now = w.now := rfl
  rw [newEvents_elapse, hsk2, htimers, hnow, hstate,
    LupiStorage.truthy_some hk]
  simp

/-- Witness for C7: a store initialized with `7`, mutated to `9` and then
load-resolved to `11`, resets back to `7` and the fired debounce writes
`7`. -/
theorem claim7_reset_restores_initial_witness :
    (step (run (mkStore (.num 7) (some "k") [])
        [.update (fun _ => .num 9), .resolveLoad (some (.num 11))])
      .reset).state = .num 7 ∧
    newEvents (step (run (mkStore (.num 7) (some "k") [])
        [.update (fun _ => .num 9), .resolveLoad (some (.num 11))]) .reset)
      (.elapse 300) =
      [.aSet ((run (mkStore (.num 7) (some "k") [])
          [.update (fun _ => .num 9),
           .resolveLoad (some (.num 11))]).now + 300) "k" (.num 7)] :=
  claim7_reset_restores_initial (.num 7) "k" []
    [.update (fun _ => .num 9), .resolveLoad (some (.num 11))] (by decide)

/-- C8, counterexample: a mutation does not synchronously invoke its
listeners — the `update` step itself, with listener `1` registered, emits
no invocation, only queuing a pass — and after three back-to-back
un-awaited `update(n => n+1)` calls the three deferred passes all deliver
the final state: listener `1` receives 3, 3, 3, not each mutation's own
new value 1, 2, 3. -/
theorem claim8_counterexample :
    newEvents (step (mkStore (.num 0) none []) (.subscribe 1))
      (.update (fun s => match s with | .num n => .num (n + 1) | v => v)) =
      [] ∧
    notifyValuesTo 1 (run (mkStore (.num 0) none [])
      [.subscribe 1,
       .update (fun s => match s with | .num n => .num (n + 1) | v => v),
       .update (fun s => match s with | .num n => .num (n + 1) | v => v),
       .update (fun s => match s with | .num n => .num (n + 1) | v => v),
       .microtask, .microtask, .microtask]).events =
      [.num 3, .num 3, .num 3] :=
  ⟨rfl, rfl⟩

/-- C8, amended: each of `update`, `set` and `reset` assigns the state and
arms the debounce synchronously, invokes no listener itself, and queues
exactly one deferred notification pass; each pass, when it runs, invokes
exactly the listeners registered at that moment, each exactly once, with
the state current at that moment — in particular a mutation whose pass
runs before the next mutation delivers its own new value to each of the
listeners it saw.  The load-completion replacement notifies its listeners
within its own continuation.  A listener unsubscribed before the pass runs
is not invoked; registering the same listener twice registers it once; and
every reachable store's registry is duplicate-free. -/
theorem claim8_deferred_notification :
    (∀ (w : StoreW) (f : JSValue → JSValue),
      (step w (.update f)).state = f w.state ∧
      newEvents w (.update f) = [] ∧
      (step w (.update f)).pendingNotify = w.pendingNotify + 1) ∧
    (∀ (w : StoreW) (fs : List (String × JSValue)),
      newEvents w (.setFields fs) = [] ∧
      (step w (.setFields fs)).pendingNotify = w.pendingNotify + 1) ∧
    (∀ (w : StoreW),
      newEvents w .reset = [] ∧
      (step w .reset).pendingNotify = w.pendingNotify + 1) ∧
    (∀ (w : StoreW), w.pendingNotify ≠ 0 →
      newEvents w .microtask =
        w.listeners.map (fun l => .notify w.now l w.state) ∧
      (step w .microtask).pendingNotify = w.pendingNotify - 1) ∧
    (∀ (w : StoreW) (f : JSValue → JSValue),
      newEvents (step w (.update f)) .microtask =
        w.listeners.map (fun l => .notify w.now l (f w.state))) ∧
    (∀ (w : StoreW) (r : Option JSValue),
      newEvents w (.resolveLoad r) =
        w.listeners.map (fun l =>
          .notify w.now l (step w (.resolveLoad r)).state)) ∧
    (∀ (w : StoreW) (l : Nat), w.listeners.Nodup → w.pendingNotify ≠ 0 →
      countNotifyTo l (newEvents w .microtask) =
        if l ∈ w.listeners then 1 else 0) ∧
    (∀ (w : StoreW) (l : Nat) (f : JSValue → JSValue),
      countNotifyTo l
        (newEvents (step (step w (.unsubscribe l)) (.update f))
          .microtask) = 0) ∧
    (∀ (w : StoreW) (l : Nat),
      step (step w (.subscribe l)) (.subscribe l) = step w (.subscribe l)) ∧
    (∀ (v0 : JSValue) (key : Option String)
      (acts : List (String × (JSValue → List JSValue → JSValue)))
      (cmds : List Cmd),
      (run (mkStore v0 key acts) cmds).listeners.Nodup) := by
  refine ⟨fun w f => ⟨rfl, newEvents_update w f, rfl⟩,
    fun w fs => ⟨newEvents_setFields w fs, rfl⟩,
    fun w => ⟨newEvents_reset w, rfl⟩,
    fun w h => ⟨newEvents_microtask w h, by rw [step_microtask w h]; rfl⟩,
    ?_, newEvents_resolveLoad, ?_, ?_, ?_, ?_⟩
  · intro w f
    rw [newEvents_microtask _ (Nat.succ_ne_zero w.pendingNotify)]
    rfl
  · intro w l hnd hp
    rw [newEvents_microtask w hp, countNotifyTo_map]
    by_cases hl : l ∈ w.listeners
    · rw [if_pos hl]
      exact List.count_eq_one_of_mem hnd hl
    · rw [if_neg hl]
      exact List.count_eq_zero_of_not_mem hl
  · intro w l f
    rw [newEvents_microtask _
      (Nat.succ_ne_zero (step w (.unsubscribe l)).pendingNotify),
      countNotifyTo_map]
    refine List.count_eq_zero_of_not_mem ?_
    show l ∉ w.listeners.filter (fun x => x ≠ l)
    simp
  · intro w l
    by_cases hl : l ∈ w.listeners
    · simp [step, hl]
    · have h1 : step w (.subscribe l) =
          { w with listeners := w.listeners ++ [l] } := by
        simp [step, hl]
      rw [h1]
      simp [step]
  · intro v0 key acts cmds
    exact listeners_nodup_run cmds _ (by simp [mkStore])

/-- Witness for C8: on a store whose only listener is `1` and whose single
queued pass is pending, running the pass notifies listener `1` exactly
once. -/
theorem claim8_deferred_notification_witness :
    countNotifyTo 1
      (newEvents (run (mkStore (.num 0) none [])
        [.subscribe 1, .update (fun s => s)]) .microtask) = 1 := by
  have h := claim8_deferred_notification.2.2.2.2.2.2.1
    (run (mkStore (.num 0) none []) [.subscribe 1, .update (fun s => s)]) 1
    (by decide) (by decide)
  rw [h]
  decide

/-- C10, counterexample: dispatching the undeclared name `"toString"` is
not a no-op: `this.actions["toString"]` finds the truthy inherited
`Object.prototype.toString`, so `dispatch` installs the string
`"[object Object]"` as the state, arms a persistence write, and its queued
notification pass delivers that string to the registered listener. -/
theorem claim10_counterexample :
    (step (mkStore (.num 0) none []) (.dispatch "toString" [])).state =
      .str "[object Object]" ∧
    (step (mkStore (.num 0) none [])
      (.dispatch "toString" [])).timers.length = 1 ∧
    notifyValuesTo 1 (run (mkStore (.num 0) none [])
      [.subscribe 1, .dispatch "toString" [], .microtask]).events =
      [.str "[object Object]"] ∧
    (mkStore (.num 0) none []).state = .num 0 :=
  ⟨rfl, rfl, rfl, rfl⟩

/-- C10, amended: `dispatch` of a name that is neither a declared action
nor a member inherited from `Object.prototype` leaves the store completely
unchanged (only a debug log); a declared action runs the full mutation
path; and an undeclared name inherited from `Object.prototype` passes the
truthy guard — when its call completes with a value, the store runs the
full mutation path on that value. -/
theorem claim10_dispatch_property_lookup (w : StoreW) (name : String)
    (args : List JSValue) :
    (lookupAction w.actions name = none →
      lookupProto objectProtoMembers name = none →
      step w (.dispatch name args) = w) ∧
    (∀ f, lookupAction w.actions name = some f →
      step w (.dispatch name args) = mutate w (f w.state args)) ∧
    (∀ f, lookupAction w.actions name = none →
      lookupProto objectProtoMembers name = some (.returns f) →
      step w (.dispatch name args) = mutate w (f w.state args)) := by
  refine ⟨fun h1 h2 => ?_, fun f h => ?_, fun f h1 h2 => ?_⟩
  · simp [step, h1, h2]
  · simp [step, h]
  · simp [step, h1, h2]

/-- Witness for C10: `"missing"` is neither declared nor inherited and
dispatching it is the identity, while the inherited `"toString"` runs the
mutation path on `"[object Object]"`. -/
theorem claim10_dispatch_property_lookup_witness :
    step (mkStore (.num 0) none []) (.dispatch "missing" []) =
      mkStore (.num 0) none [] ∧
    step (mkStore (.num 0) none []) (.dispatch "toString" []) =
      mutate (mkStore (.num 0) none []) (.str "[object Object]") :=
  ⟨(claim10_dispatch_property_lookup (mkStore (.num 0) none [])
      "missing" []).1 rfl rfl,
   (claim10_dispatch_property_lookup (mkStore (.num 0) none [])
      "toString" []).2.2 (fun _ _ => .str "[object Object]") rfl rfl⟩

end Lupi
